import Mathlib

/-!
Verification development for the `generator` SVG writer (`src/SvgWriter.cpp`).

The writer accumulates projected primitives (points, lines, triangles) and
serializes them to SVG text with a stable painter's-algorithm depth sort.
Scalars are modelled by `ℚ` (the C++ code computes in `double`; the claims
under study are exact-arithmetic properties of the algorithms).  The external
`gml` linear-algebra collaborators (`clamp`, `dot`, `cross`, `normal`,
`project`, `ortho2D`, `perspective`) are not part of this repository; they
are modelled from the spec's description of them.
-/

namespace SvgGen

/-- A 3-vector of rationals, modelling `gml::dvec3`. -/
structure Vec3 where
  x : ℚ
  y : ℚ
  z : ℚ
deriving DecidableEq, Repr

/-- A 4-vector of rationals, modelling `gml::dvec4`. -/
structure Vec4 where
  x : ℚ
  y : ℚ
  z : ℚ
  w : ℚ
deriving DecidableEq, Repr

/-- Componentwise difference of 3-vectors. -/
def Vec3.sub (a b : Vec3) : Vec3 :=
  ⟨a.x - b.x, a.y - b.y, a.z - b.z⟩

/-- Modelled from the spec: `gml::dot` on 3-vectors. -/
def dot (a b : Vec3) : ℚ :=
  a.x * b.x + a.y * b.y + a.z * b.z

/-- Modelled from the spec: `gml::cross` on 3-vectors. -/
def cross (a b : Vec3) : Vec3 :=
  ⟨a.y * b.z - a.z * b.y, a.z * b.x - a.x * b.z, a.x * b.y - a.y * b.x⟩

/-- Dot product of 4-vectors, used for matrix application. -/
def dot4 (a b : Vec4) : ℚ :=
  a.x * b.x + a.y * b.y + a.z * b.z + a.w * b.w

/-- Modelled from the spec: `gml::clamp`. -/
def gmlClamp (c lo hi : ℚ) : ℚ :=
  min (max c lo) hi

/-- Modelled from the spec: `gml::normal(p1,p2,p3)`, the (not necessarily
normalized) cross-product-based polygon normal `(p2-p1) × (p3-p1)` (§6 of the
spec; the culling description in §4.3 gives the same formula). -/
def gmlNormal (p1 p2 p3 : Vec3) : Vec3 :=
  cross (p2.sub p1) (p3.sub p1)

/-- A 4×4 rational matrix, modelling `gml::dmat4`, stored as rows. -/
structure Mat4 where
  r0 : Vec4
  r1 : Vec4
  r2 : Vec4
  r3 : Vec4
deriving DecidableEq, Repr

/-- Column 0 of a matrix. -/
def Mat4.c0 (m : Mat4) : Vec4 := ⟨m.r0.x, m.r1.x, m.r2.x, m.r3.x⟩

/-- Column 1 of a matrix. -/
def Mat4.c1 (m : Mat4) : Vec4 := ⟨m.r0.y, m.r1.y, m.r2.y, m.r3.y⟩

/-- Column 2 of a matrix. -/
def Mat4.c2 (m : Mat4) : Vec4 := ⟨m.r0.z, m.r1.z, m.r2.z, m.r3.z⟩

/-- Column 3 of a matrix. -/
def Mat4.c3 (m : Mat4) : Vec4 := ⟨m.r0.w, m.r1.w, m.r2.w, m.r3.w⟩

/-- Matrix product, modelling `gml::dmat4` `operator*`. -/
def Mat4.mul (a b : Mat4) : Mat4 :=
  ⟨⟨dot4 a.r0 b.c0, dot4 a.r0 b.c1, dot4 a.r0 b.c2, dot4 a.r0 b.c3⟩,
   ⟨dot4 a.r1 b.c0, dot4 a.r1 b.c1, dot4 a.r1 b.c2, dot4 a.r1 b.c3⟩,
   ⟨dot4 a.r2 b.c0, dot4 a.r2 b.c1, dot4 a.r2 b.c2, dot4 a.r2 b.c3⟩,
   ⟨dot4 a.r3 b.c0, dot4 a.r3 b.c1, dot4 a.r3 b.c2, dot4 a.r3 b.c3⟩⟩

/-- Matrix-vector product. -/
def Mat4.mulVec (m : Mat4) (v : Vec4) : Vec4 :=
  ⟨dot4 m.r0 v, dot4 m.r1 v, dot4 m.r2 v, dot4 m.r3 v⟩

/-- The identity matrix, modelling the `gml::dmat4{1.0}` initializers. -/
def idMat4 : Mat4 :=
  ⟨⟨1, 0, 0, 0⟩, ⟨0, 1, 0, 0⟩, ⟨0, 0, 1, 0⟩, ⟨0, 0, 0, 1⟩⟩

/-- Modelled from the spec: `gml::ortho2D(left,right,bottom,top)`, the standard
2D orthographic projection (near = -1, far = 1). -/
def gmlOrtho2D (left right bottom top : ℚ) : Mat4 :=
  ⟨⟨2 / (right - left), 0, 0, -(right + left) / (right - left)⟩,
   ⟨0, 2 / (top - bottom), 0, -(top + bottom) / (top - bottom)⟩,
   ⟨0, 0, -1, 0⟩,
   ⟨0, 0, 0, 1⟩⟩

/-- Modelled from the spec: `gml::perspective(fovy,aspect,zNear,zFar)`, the
standard OpenGL-style perspective projection.  Its entry `cot(fovy/2)` is
transcendental in `fovy`, so the model takes that scalar as the explicit
parameter `cotHalfFovy`; no claim depends on the numeric relation between
`fovy` and `cot(fovy/2)`. -/
def gmlPerspective (cotHalfFovy aspect zNear zFar : ℚ) : Mat4 :=
  ⟨⟨cotHalfFovy / aspect, 0, 0, 0⟩,
   ⟨0, cotHalfFovy, 0, 0⟩,
   ⟨0, 0, (zFar + zNear) / (zNear - zFar), 2 * zFar * zNear / (zNear - zFar)⟩,
   ⟨0, 0, -1, 0⟩⟩

/-- Modelled from the spec: `gml::project(p, m, viewportOrigin, viewportSize)`,
the standard (GLU-style) viewport projection: clip coordinates through `m`,
perspective divide, then the map of normalized device coordinates onto the
window rectangle, keeping NDC-style depth in `z`. -/
def gmlProject (p : Vec3) (m : Mat4) (vo : ℤ × ℤ) (vs : ℕ × ℕ) : Vec3 :=
  let t := m.mulVec ⟨p.x, p.y, p.z, 1⟩
  let nx := t.x / t.w
  let ny := t.y / t.w
  let nz := t.z / t.w
  ⟨(vo.1 : ℚ) + (vs.1 : ℚ) * (nx + 1) / 2,
   (vo.2 : ℚ) + (vs.2 : ℚ) * (ny + 1) / 2,
   (nz + 1) / 2⟩

/-- The accumulator's primitive records, modelling the `BaseElem` hierarchy
(`VertexElem`, `LineElem`, `TriangleElem`): each variant stores its projected
screen-space points and its color. -/
inductive Elem where
  | vertex (p : Vec3) (color : Vec3)
  | line (p1 p2 : Vec3) (color : Vec3)
  | triangle (p1 p2 p3 : Vec3) (color : Vec3)
deriving DecidableEq, Repr

/-- The depth key `z_` stored by the `BaseElem` constructors: the point's own
`z` for a vertex, the average of the endpoint depths for a line, the average
of the corner depths for a triangle. -/
def Elem.zKey : Elem → ℚ
  | .vertex p _ => p.z
  | .line p1 p2 _ => (p1.z + p2.z) / 2
  | .triangle p1 p2 p3 _ => (p1.z + p2.z + p3.z) / 3

/-- One serialized color component: the anonymous-namespace `fn` inside
`toColor`, `static_cast<unsigned>(255 * gml::clamp(c, 0.0, 1.0))` (the cast
truncates, which on the clamped non-negative value is the floor). -/
def toColorComp (c : ℚ) : ℕ :=
  (⌊255 * gmlClamp c 0 1⌋).toNat

/-- The anonymous-namespace `toColor`: the `rgb(R,G,B)` style string. -/
def toColor (c : Vec3) : String :=
  "rgb(" ++ toString (toColorComp c.x) ++ "," ++ toString (toColorComp c.y)
    ++ "," ++ toString (toColorComp c.z) ++ ")"

/-- Default textual rendering of a coordinate, standing in for the C++
stream insertion of a `double`. -/
def numStr (q : ℚ) : String :=
  toString q

/-- The `stream` virtual of each element variant: its SVG fragment. -/
def Elem.stream : Elem → String
  | .vertex p color =>
      "<circle cx=\"" ++ numStr p.x ++ "\" cy=\"" ++ numStr p.y
        ++ "\" r=\"3\" style=\"fill: " ++ toColor color ++ "\" />\n"
  | .line p1 p2 color =>
      "<line x1=\"" ++ numStr p1.x ++ "\" y1=\"" ++ numStr p1.y
        ++ "\" x2=\"" ++ numStr p2.x ++ "\" y2=\"" ++ numStr p2.y
        ++ "\" style=\"stroke: " ++ toColor color ++ ";\" />\n"
  | .triangle p1 p2 p3 color =>
      "<polygon points=\"" ++ numStr p1.x ++ "," ++ numStr p1.y ++ " "
        ++ numStr p2.x ++ "," ++ numStr p2.y ++ " "
        ++ numStr p3.x ++ "," ++ numStr p3.y ++ " "
        ++ "\" style=\"fill: " ++ toColor color ++ ";\" />\n"

/-- The writer state: the members of `SvgWriter`, with the C++ trailing
underscore naming kept. -/
structure SvgWriter where
  size_ : ℕ × ℕ
  viewMatrix_ : Mat4
  projMatrix_ : Mat4
  viewProjMatrix_ : Mat4
  viewportOrigin_ : ℤ × ℤ
  viewportSize_ : ℕ × ℕ
  lightDir_ : Vec3
  cullface_ : Bool
  elems_ : List Elem
deriving DecidableEq, Repr

/-- The `SvgWriter(width, height)` constructor.  The C++ constructor fixes
`lightDir_ = normalize(dvec3{1,2,3})`, which is irrational (a multiple of
`1/√14`) and so not representable over `ℚ`; the light direction is therefore
a parameter of the model.  No claim under study depends on its value. -/
def SvgWriter.init (width height : ℕ) (lightDir : Vec3) : SvgWriter :=
  ⟨(width, height), idMat4, idMat4, idMat4, (0, 0), (width, height),
   lightDir, true, []⟩

/-- `SvgWriter::project`: viewport projection through `viewProjMatrix_`
followed by the SVG y-flip `temp[1] = size_[1] - temp[1]`. -/
def SvgWriter.project (s : SvgWriter) (p : Vec3) : Vec3 :=
  let temp := gmlProject p s.viewProjMatrix_ s.viewportOrigin_ s.viewportSize_
  ⟨temp.x, (s.size_.2 : ℚ) - temp.y, temp.z⟩

/-- `SvgWriter::normalToColor`: Lambert-style grayscale shading,
`d = clamp(dot(normal, lightDir_), 0, 1)` then `0.1 + 0.8 * d`. -/
def SvgWriter.normalToColor (s : SvgWriter) (normal : Vec3) : Vec3 :=
  let d := gmlClamp (dot normal s.lightDir_) 0 1
  let e := 1 / 10 + (8 / 10) * d
  ⟨e, e, e⟩

/-- `SvgWriter::modelView`: set the view matrix and recompute the cache. -/
def SvgWriter.modelView (s : SvgWriter) (matrix : Mat4) : SvgWriter :=
  { s with viewMatrix_ := matrix,
           viewProjMatrix_ := s.projMatrix_.mul matrix }

/-- `SvgWriter::perspective`: set the projection matrix and recompute the
cache (see `gmlPerspective` for the `cotHalfFovy` parameter). -/
def SvgWriter.perspective (s : SvgWriter) (cotHalfFovy aspect zNear zFar : ℚ) :
    SvgWriter :=
  let pm := gmlPerspective cotHalfFovy aspect zNear zFar
  { s with projMatrix_ := pm, viewProjMatrix_ := pm.mul s.viewMatrix_ }

/-- `SvgWriter::ortho`: set the projection matrix and recompute the cache. -/
def SvgWriter.ortho (s : SvgWriter) (left right bottom top : ℚ) : SvgWriter :=
  let pm := gmlOrtho2D left right bottom top
  { s with projMatrix_ := pm, viewProjMatrix_ := pm.mul s.viewMatrix_ }

/-- `SvgWriter::viewport`: set the viewport origin and size. -/
def SvgWriter.viewport (s : SvgWriter) (x y : ℤ) (width height : ℕ) :
    SvgWriter :=
  { s with viewportOrigin_ := (x, y), viewportSize_ := (width, height) }

/-- `SvgWriter::cullface`: toggle back-face culling. -/
def SvgWriter.cullface (s : SvgWriter) (b : Bool) : SvgWriter :=
  { s with cullface_ := b }

/-- `SvgWriter::writePoint`: record a vertex at the projected point. -/
def SvgWriter.writePoint (s : SvgWriter) (p color : Vec3) : SvgWriter :=
  { s with elems_ := s.elems_ ++ [Elem.vertex (s.project p) color] }

/-- `SvgWriter::writeLine`: reject a degenerate line (`p1 == p2`), else
record a line with projected endpoints. -/
def SvgWriter.writeLine (s : SvgWriter) (p1 p2 color : Vec3) : SvgWriter :=
  if p1 = p2 then s
  else { s with elems_ := s.elems_ ++ [Elem.line (s.project p1) (s.project p2) color] }

/-- `SvgWriter::writeTriangle` (four-argument overload): reject degenerate
corners, project, back-face cull on the projected normal's `z` being
strictly positive, else record the triangle. -/
def SvgWriter.writeTriangle (s : SvgWriter) (p1 p2 p3 color : Vec3) :
    SvgWriter :=
  if p1 = p2 ∨ p2 = p3 ∨ p1 = p3 then s
  else
    let pp1 := s.project p1
    let pp2 := s.project p2
    let pp3 := s.project p3
    if s.cullface_ = true ∧ (gmlNormal pp1 pp2 pp3).z > 0 then s
    else { s with elems_ := s.elems_ ++ [Elem.triangle pp1 pp2 pp3 color] }

/-- `SvgWriter::writeTriangle` (colorless overload): delegate to the
four-argument overload with the world-space polygon normal shaded. -/
def SvgWriter.writeTriangleNoColor (s : SvgWriter) (p1 p2 p3 : Vec3) :
    SvgWriter :=
  s.writeTriangle p1 p2 p3 (s.normalToColor (gmlNormal p1 p2 p3))

/-- The comparator of the `std::stable_sort` in `SvgWriter::str` is
`e1->z_ > e2->z_` ("comes strictly before"); as a merge-sort `le` relation
("may come before") this is `¬(e2.zKey > e1.zKey)`, i.e. `e1.zKey ≥ e2.zKey`. -/
def elemLE (e1 e2 : Elem) : Bool :=
  decide (e1.zKey ≥ e2.zKey)

/-- The stable depth sort performed by `SvgWriter::str`: descending `z_`. -/
def sortElems (l : List Elem) : List Elem :=
  l.mergeSort elemLE

/-- The document prefix emitted by `SvgWriter::str`: the `<svg>` root element
and the white background rectangle. -/
def svgHeader (s : SvgWriter) : String :=
  "<svg width=\"" ++ toString s.size_.1 ++ "\" height=\"" ++ toString s.size_.2
    ++ "\" version=\"1.1\" xmlns=\"http://www.w3.org/2000/svg\">\n"
    ++ "<rect width=\"" ++ toString s.size_.1 ++ "\" height=\""
    ++ toString s.size_.2 ++ "\" style=\"fill:white\"/>\n"

/-- `SvgWriter::str`: header, background, stable depth sort (performed in
place on the accumulator, hence the returned updated state), each element's
fragment in sorted order, footer. -/
def SvgWriter.str (s : SvgWriter) : String × SvgWriter :=
  let sorted := sortElems s.elems_
  (svgHeader s ++ String.join (sorted.map Elem.stream) ++ "</svg>\n",
   { s with elems_ := sorted })

/-- The camera mutators of the writer, as submitted by a caller.  The
`perspective` constructor carries the `cotHalfFovy` scalar of
`gmlPerspective`. -/
inductive CameraOp where
  | modelView (matrix : Mat4)
  | perspective (cotHalfFovy aspect zNear zFar : ℚ)
  | ortho (left right bottom top : ℚ)

/-- Apply one camera mutator to the writer state. -/
def applyCameraOp (s : SvgWriter) : CameraOp → SvgWriter
  | .modelView m => s.modelView m
  | .perspective c a zn zf => s.perspective c a zn zf
  | .ortho l r b t => s.ortho l r b t

/-- Apply a sequence of camera mutators, first to last. -/
def applyCameraOps (s : SvgWriter) (ops : List CameraOp) : SvgWriter :=
  ops.foldl applyCameraOp s

theorem elemLE_trans : ∀ (a b c : Elem), elemLE a b → elemLE b c → elemLE a c := by
  intro a b c hab hbc
  simp only [elemLE, decide_eq_true_eq] at hab hbc ⊢
  exact le_trans hbc hab

theorem elemLE_total : ∀ (a b : Elem), elemLE a b || elemLE b a := by
  intro a b
  simp only [elemLE, Bool.or_eq_true, decide_eq_true_eq]
  exact le_total b.zKey a.zKey

theorem sortElems_perm (l : List Elem) : List.Perm (sortElems l) l :=
  List.mergeSort_perm l elemLE

theorem sortElems_sorted (l : List Elem) :
    (sortElems l).Pairwise (fun e1 e2 => e1.zKey ≥ e2.zKey) := by
  have h := List.sorted_mergeSort elemLE_trans elemLE_total l
  exact h.imp (fun hab => by simpa [elemLE] using hab)

theorem sortElems_stable (p : Elem → Bool)
    (hp : ∀ a b, p a = true → p b = true → elemLE a b = true) (l : List Elem) :
    (sortElems l).filter p = l.filter p := by
  have hsub : List.Sublist (l.filter p) l := List.filter_sublist l
  have hpw : (l.filter p).Pairwise (fun a b => elemLE a b = true) :=
    List.pairwise_of_forall_mem_list (fun a ha b hb =>
      hp a b (List.mem_filter.mp ha).2 (List.mem_filter.mp hb).2)
  have h1 : List.Sublist (l.filter p) (sortElems l) :=
    List.sublist_mergeSort elemLE_trans elemLE_total hpw hsub
  have h2 : (l.filter p).filter p = l.filter p :=
    List.filter_eq_self.mpr (fun a ha => (List.mem_filter.mp ha).2)
  have h3 : List.Sublist (l.filter p) ((sortElems l).filter p) := by
    have h4 := h1.filter p
    rwa [h2] at h4
  have h5 : List.Perm ((sortElems l).filter p) (l.filter p) := (sortElems_perm l).filter p
  exact (h3.eq_of_length h5.length_eq.symm).symm

theorem sortElems_idem (l : List Elem) : sortElems (sortElems l) = sortElems l :=
  List.mergeSort_of_sorted (List.sorted_mergeSort elemLE_trans elemLE_total l)

/-- C1: the SVG text returned by `str()` serializes exactly the stably
depth-sorted accumulator: the emitted element fragments are those of
`sortElems s.elems_`, which is a permutation of the accumulator, ordered by
descending depth key `zKey`, and in which primitives of any fixed depth key
keep their submission order (the sort is stable). -/
theorem SvgWriter.str_sorted_stable (s : SvgWriter) :
    (s.str).1 = svgHeader s ++ String.join ((sortElems s.elems_).map Elem.stream) ++ "</svg>\n"
    ∧ List.Perm (sortElems s.elems_) s.elems_
    ∧ (sortElems s.elems_).Pairwise (fun e1 e2 => e1.zKey ≥ e2.zKey)
    ∧ ∀ q : ℚ, (sortElems s.elems_).filter (fun e => decide (e.zKey = q))
        = s.elems_.filter (fun e => decide (e.zKey = q)) := by
  refine ⟨rfl, sortElems_perm s.elems_, sortElems_sorted s.elems_, fun q => ?_⟩
  refine sortElems_stable _ (fun a b ha hb => ?_) s.elems_
  simp only [decide_eq_true_eq] at ha hb
  simp [elemLE, ha, hb]

/-- C9: rendering is idempotent: a second call to `str()` on the state left
behind by a first call (whose in-place stable depth sort reordered the
accumulator) returns the identical string, and leaves the state unchanged. -/
theorem SvgWriter.str_idempotent (s : SvgWriter) :
    (((s.str).2).str).1 = (s.str).1 ∧ (((s.str).2).str).2 = (s.str).2 := by
  constructor <;> simp [SvgWriter.str, svgHeader, sortElems_idem]

theorem applyCameraOp_cache (s : SvgWriter) (op : CameraOp) :
    (applyCameraOp s op).viewProjMatrix_
      = ((applyCameraOp s op).projMatrix_).mul ((applyCameraOp s op).viewMatrix_) := by
  cases op <;>
    simp [applyCameraOp, SvgWriter.modelView, SvgWriter.perspective, SvgWriter.ortho]

theorem applyCameraOps_cache (ops : List CameraOp) (s : SvgWriter)
    (h : s.viewProjMatrix_ = s.projMatrix_.mul s.viewMatrix_) :
    (applyCameraOps s ops).viewProjMatrix_
      = ((applyCameraOps s ops).projMatrix_).mul ((applyCameraOps s ops).viewMatrix_) := by
  induction ops generalizing s with
  | nil => exact h
  | cons op rest ih =>
      have hstep := applyCameraOp_cache s op
      simpa [applyCameraOps] using ih (applyCameraOp s op) hstep

theorem idMat4_mul_idMat4 : idMat4.mul idMat4 = idMat4 := by
  norm_num [Mat4.mul, idMat4, Mat4.c0, Mat4.c1, Mat4.c2, Mat4.c3, dot4]

/-- C5: after any sequence of the camera mutators `modelView`, `perspective`
and `ortho` (in any order, with any arguments) applied to a freshly
constructed writer, the cached `viewProjMatrix_` equals the product
`projMatrix_ · viewMatrix_`. -/
theorem viewProj_cache (w h : ℕ) (ld : Vec3) (ops : List CameraOp) :
    (applyCameraOps (SvgWriter.init w h ld) ops).viewProjMatrix_
      = ((applyCameraOps (SvgWriter.init w h ld) ops).projMatrix_).mul
          ((applyCameraOps (SvgWriter.init w h ld) ops).viewMatrix_) :=
  applyCameraOps_cache ops _ (by simpa [SvgWriter.init] using idMat4_mul_idMat4.symm)

/-- C6: `normalToColor` is the grayscale color `(e, e, e)` with
`e = 0.1 + 0.8 · clamp(dot(n, lightDir), 0, 1)`, and the shaded gray value
always lies in the closed interval `[0.1, 0.9]`. -/
theorem normalToColor_formula (s : SvgWriter) (n : Vec3) :
    s.normalToColor n
      = ⟨1 / 10 + (8 / 10) * gmlClamp (dot n s.lightDir_) 0 1,
         1 / 10 + (8 / 10) * gmlClamp (dot n s.lightDir_) 0 1,
         1 / 10 + (8 / 10) * gmlClamp (dot n s.lightDir_) 0 1⟩
    ∧ (s.normalToColor n).y = (s.normalToColor n).x
    ∧ (s.normalToColor n).z = (s.normalToColor n).x
    ∧ 1 / 10 ≤ (s.normalToColor n).x ∧ (s.normalToColor n).x ≤ 9 / 10 := by
  have h0 : (0 : ℚ) ≤ gmlClamp (dot n s.lightDir_) 0 1 :=
    le_min (le_max_right _ _) zero_le_one
  have h1 : gmlClamp (dot n s.lightDir_) 0 1 ≤ 1 := min_le_right _ _
  refine ⟨rfl, rfl, rfl, ?_, ?_⟩ <;>
    simp only [SvgWriter.normalToColor] <;> nlinarith

theorem toColorComp_floor (q : ℚ) :
    (toColorComp q : ℤ) = ⌊255 * gmlClamp q 0 1⌋ ∧ toColorComp q ≤ 255 := by
  have h0 : (0 : ℚ) ≤ gmlClamp q 0 1 := le_min (le_max_right _ _) zero_le_one
  have h1 : gmlClamp q 0 1 ≤ 1 := min_le_right _ _
  have hnn : (0 : ℤ) ≤ ⌊255 * gmlClamp q 0 1⌋ := by
    apply Int.floor_nonneg.mpr
    positivity
  have hub : ⌊255 * gmlClamp q 0 1⌋ ≤ 255 := by
    have : (255 : ℚ) * gmlClamp q 0 1 ≤ 255 := by nlinarith
    calc ⌊255 * gmlClamp q 0 1⌋ ≤ ⌊(255 : ℚ)⌋ := Int.floor_le_floor this
      _ = 255 := by norm_num
  exact ⟨Int.toNat_of_nonneg hnn, Int.toNat_le.mpr hub⟩

/-- C7: the serialized color string is `rgb(R,G,B)` where each component is
`⌊255 · clamp(c, 0, 1)⌋` of the corresponding stored component, an integer
between 0 and 255. -/
theorem toColor_components (c : Vec3) :
    toColor c = "rgb(" ++ toString (toColorComp c.x) ++ "," ++ toString (toColorComp c.y)
        ++ "," ++ toString (toColorComp c.z) ++ ")"
    ∧ ∀ q : ℚ, (toColorComp q : ℤ) = ⌊255 * gmlClamp q 0 1⌋ ∧ toColorComp q ≤ 255 :=
  ⟨rfl, toColorComp_floor⟩

theorem writeTriangle_cases (s : SvgWriter) (p1 p2 p3 c : Vec3)
    (h12 : p1 ≠ p2) (h23 : p2 ≠ p3) (h13 : p1 ≠ p3) :
    (s.cullface_ = true ∧ (gmlNormal (s.project p1) (s.project p2) (s.project p3)).z > 0 →
        s.writeTriangle p1 p2 p3 c = s)
    ∧ (¬(s.cullface_ = true ∧ (gmlNormal (s.project p1) (s.project p2) (s.project p3)).z > 0) →
        (s.writeTriangle p1 p2 p3 c).elems_
          = s.elems_ ++ [Elem.triangle (s.project p1) (s.project p2) (s.project p3) c]) := by
  have hne : ¬(p1 = p2 ∨ p2 = p3 ∨ p1 = p3) := by simp [h12, h23, h13]
  constructor
  · intro h
    simp only [SvgWriter.writeTriangle, if_neg hne, if_pos h]
  · intro h
    simp only [SvgWriter.writeTriangle, if_neg hne, if_neg h]

/-- C2: for pairwise-distinct corners, `writeTriangle` leaves the writer
unchanged exactly when culling is enabled and the `z` component of the
screen-space polygon normal of the projected corners is strictly positive;
otherwise the triangle is appended, and in particular it is appended when
that `z` component is zero. -/
theorem writeTriangle_cull_iff (s : SvgWriter) (p1 p2 p3 c : Vec3)
    (h12 : p1 ≠ p2) (h23 : p2 ≠ p3) (h13 : p1 ≠ p3) :
    (s.cullface_ = true ∧ (gmlNormal (s.project p1) (s.project p2) (s.project p3)).z > 0 →
        s.writeTriangle p1 p2 p3 c = s)
    ∧ (¬(s.cullface_ = true ∧ (gmlNormal (s.project p1) (s.project p2) (s.project p3)).z > 0) →
        (s.writeTriangle p1 p2 p3 c).elems_
          = s.elems_ ++ [Elem.triangle (s.project p1) (s.project p2) (s.project p3) c])
    ∧ ((gmlNormal (s.project p1) (s.project p2) (s.project p3)).z = 0 →
        (s.writeTriangle p1 p2 p3 c).elems_
          = s.elems_ ++ [Elem.triangle (s.project p1) (s.project p2) (s.project p3) c]) := by
  obtain ⟨hA, hB⟩ := writeTriangle_cases s p1 p2 p3 c h12 h23 h13
  refine ⟨hA, hB, fun h0 => hB (fun hc => ?_)⟩
  rw [h0] at hc
  exact lt_irrefl 0 hc.2

/-- Witness for C2 at the freshly constructed 100×100 writer and a
front-facing triangle: the culling condition is false there, so the
triangle is appended. -/
theorem writeTriangle_cull_iff_witness :
    ((SvgWriter.init 100 100 ⟨0, 0, 1⟩).writeTriangle ⟨0, 0, 0⟩ ⟨100, 0, 0⟩ ⟨0, 100, 0⟩ ⟨0, 0, 1⟩).elems_
      = (SvgWriter.init 100 100 ⟨0, 0, 1⟩).elems_
        ++ [Elem.triangle ((SvgWriter.init 100 100 ⟨0, 0, 1⟩).project ⟨0, 0, 0⟩)
             ((SvgWriter.init 100 100 ⟨0, 0, 1⟩).project ⟨100, 0, 0⟩)
             ((SvgWriter.init 100 100 ⟨0, 0, 1⟩).project ⟨0, 100, 0⟩) ⟨0, 0, 1⟩] :=
  ((writeTriangle_cull_iff (SvgWriter.init 100 100 ⟨0, 0, 1⟩) ⟨0, 0, 0⟩ ⟨100, 0, 0⟩ ⟨0, 100, 0⟩
      ⟨0, 0, 1⟩ (by norm_num [Vec3.mk.injEq]) (by norm_num [Vec3.mk.injEq])
      (by norm_num [Vec3.mk.injEq])).2.1
    (by norm_num [SvgWriter.init, SvgWriter.project, gmlProject, Mat4.mulVec, dot4, idMat4,
      gmlNormal, cross, Vec3.sub]))

/-- C4: a degenerate line (`writeLine(p, p, c)`) and a degenerate triangle
(any two equal corners, with either overload) leave the writer unchanged:
no degenerate primitive is ever recorded. -/
theorem degenerate_rejected (s : SvgWriter) (p p1 p2 p3 c : Vec3) :
    s.writeLine p p c = s
    ∧ (p1 = p2 ∨ p2 = p3 ∨ p1 = p3 →
        s.writeTriangle p1 p2 p3 c = s ∧ s.writeTriangleNoColor p1 p2 p3 = s) := by
  refine ⟨by simp [SvgWriter.writeLine], fun h => ⟨?_, ?_⟩⟩
  · simp only [SvgWriter.writeTriangle, if_pos h]
  · simp only [SvgWriter.writeTriangleNoColor, SvgWriter.writeTriangle, if_pos h]

/-- Witness for C4: a concrete degenerate line and a concrete degenerate
triangle (first two corners equal) are both dropped. -/
theorem degenerate_rejected_witness :
    (SvgWriter.init 3 3 ⟨0, 0, 1⟩).writeLine ⟨1, 1, 1⟩ ⟨1, 1, 1⟩ ⟨1, 0, 0⟩ = SvgWriter.init 3 3 ⟨0, 0, 1⟩
    ∧ (SvgWriter.init 3 3 ⟨0, 0, 1⟩).writeTriangle ⟨0, 0, 0⟩ ⟨0, 0, 0⟩ ⟨1, 2, 3⟩ ⟨1, 0, 0⟩
        = SvgWriter.init 3 3 ⟨0, 0, 1⟩
    ∧ (SvgWriter.init 3 3 ⟨0, 0, 1⟩).writeTriangleNoColor ⟨0, 0, 0⟩ ⟨1, 2, 3⟩ ⟨0, 0, 0⟩
        = SvgWriter.init 3 3 ⟨0, 0, 1⟩ :=
  ⟨(degenerate_rejected (SvgWriter.init 3 3 ⟨0, 0, 1⟩) ⟨1, 1, 1⟩ ⟨0, 0, 0⟩ ⟨0, 0, 0⟩ ⟨1, 2, 3⟩ ⟨1, 0, 0⟩).1,
   ((degenerate_rejected (SvgWriter.init 3 3 ⟨0, 0, 1⟩) ⟨1, 1, 1⟩ ⟨0, 0, 0⟩ ⟨0, 0, 0⟩ ⟨1, 2, 3⟩ ⟨1, 0, 0⟩).2
      (Or.inl rfl)).1,
   ((degenerate_rejected (SvgWriter.init 3 3 ⟨0, 0, 1⟩) ⟨1, 1, 1⟩ ⟨0, 0, 0⟩ ⟨1, 2, 3⟩ ⟨0, 0, 0⟩ ⟨1, 0, 0⟩).2
      (Or.inr (Or.inr rfl))).2⟩

theorem gmlNormal_swap_z (p1 p2 p3 : Vec3) :
    (gmlNormal p2 p1 p3).z = -(gmlNormal p1 p2 p3).z := by
  simp only [gmlNormal, cross, Vec3.sub]
  ring

theorem gmlNormal_self (a : Vec3) : gmlNormal a a a = ⟨0, 0, 0⟩ := by
  simp [gmlNormal, cross, Vec3.sub]

/-- C3 counterexample: with culling on (the fresh writer's default), the
pairwise-distinct collinear corners `(0,0,0)`, `(1,0,0)`, `(2,0,0)` project to
collinear screen points, so the screen normal's `z` is `0` and BOTH the
triangle and its corner-swapped reverse are recorded — "exactly one of
`{T, T'}` is recorded" is false at this input. -/
theorem cull_symmetry_cex :
    (SvgWriter.init 100 100 ⟨0, 0, 1⟩).cullface_ = true
    ∧ (⟨0, 0, 0⟩ : Vec3) ≠ ⟨1, 0, 0⟩ ∧ (⟨1, 0, 0⟩ : Vec3) ≠ ⟨2, 0, 0⟩
    ∧ (⟨0, 0, 0⟩ : Vec3) ≠ ⟨2, 0, 0⟩
    ∧ ¬((((SvgWriter.init 100 100 ⟨0, 0, 1⟩).writeTriangle ⟨0, 0, 0⟩ ⟨1, 0, 0⟩ ⟨2, 0, 0⟩ ⟨1, 1, 1⟩).elems_ ≠ []
          ∧ ((SvgWriter.init 100 100 ⟨0, 0, 1⟩).writeTriangle ⟨1, 0, 0⟩ ⟨0, 0, 0⟩ ⟨2, 0, 0⟩ ⟨1, 1, 1⟩).elems_ = [])
        ∨ (((SvgWriter.init 100 100 ⟨0, 0, 1⟩).writeTriangle ⟨0, 0, 0⟩ ⟨1, 0, 0⟩ ⟨2, 0, 0⟩ ⟨1, 1, 1⟩).elems_ = []
          ∧ ((SvgWriter.init 100 100 ⟨0, 0, 1⟩).writeTriangle ⟨1, 0, 0⟩ ⟨0, 0, 0⟩ ⟨2, 0, 0⟩ ⟨1, 1, 1⟩).elems_ ≠ [])) := by
  have hx : ((SvgWriter.init 100 100 ⟨0, 0, 1⟩).writeTriangle ⟨0, 0, 0⟩ ⟨1, 0, 0⟩ ⟨2, 0, 0⟩ ⟨1, 1, 1⟩).elems_ ≠ [] := by
    norm_num [SvgWriter.init, SvgWriter.writeTriangle, SvgWriter.project, gmlProject,
      Mat4.mulVec, dot4, idMat4, gmlNormal, cross, Vec3.sub, Vec3.mk.injEq]
  have hy : ((SvgWriter.init 100 100 ⟨0, 0, 1⟩).writeTriangle ⟨1, 0, 0⟩ ⟨0, 0, 0⟩ ⟨2, 0, 0⟩ ⟨1, 1, 1⟩).elems_ ≠ [] := by
    norm_num [SvgWriter.init, SvgWriter.writeTriangle, SvgWriter.project, gmlProject,
      Mat4.mulVec, dot4, idMat4, gmlNormal, cross, Vec3.sub, Vec3.mk.injEq]
  refine ⟨rfl, by norm_num [Vec3.mk.injEq], by norm_num [Vec3.mk.injEq],
    by norm_num [Vec3.mk.injEq], ?_⟩
  rintro (⟨-, h⟩ | ⟨h, -⟩)
  · exact hy h
  · exact hx h

/-- C3 (amended): for a triangle with pairwise-distinct corners and its
reverse obtained by swapping the first two corners, with culling on: when the
screen-space polygon normal's `z` component is nonzero exactly one of the two
is recorded; when it is zero (collinear projections) both are recorded. -/
theorem cull_symmetry_amended (s : SvgWriter) (p1 p2 p3 c : Vec3)
    (h12 : p1 ≠ p2) (h23 : p2 ≠ p3) (h13 : p1 ≠ p3) (hcull : s.cullface_ = true) :
    ((gmlNormal (s.project p1) (s.project p2) (s.project p3)).z ≠ 0 →
      (s.writeTriangle p1 p2 p3 c = s
        ∧ (s.writeTriangle p2 p1 p3 c).elems_
            = s.elems_ ++ [Elem.triangle (s.project p2) (s.project p1) (s.project p3) c])
      ∨ ((s.writeTriangle p1 p2 p3 c).elems_
            = s.elems_ ++ [Elem.triangle (s.project p1) (s.project p2) (s.project p3) c]
        ∧ s.writeTriangle p2 p1 p3 c = s))
    ∧ ((gmlNormal (s.project p1) (s.project p2) (s.project p3)).z = 0 →
      (s.writeTriangle p1 p2 p3 c).elems_
          = s.elems_ ++ [Elem.triangle (s.project p1) (s.project p2) (s.project p3) c]
        ∧ (s.writeTriangle p2 p1 p3 c).elems_
            = s.elems_ ++ [Elem.triangle (s.project p2) (s.project p1) (s.project p3) c]) := by
  obtain ⟨hA, hB⟩ := writeTriangle_cases s p1 p2 p3 c h12 h23 h13
  obtain ⟨hA', hB'⟩ := writeTriangle_cases s p2 p1 p3 c (Ne.symm h12) h13 h23
  have hswap : (gmlNormal (s.project p2) (s.project p1) (s.project p3)).z
      = -(gmlNormal (s.project p1) (s.project p2) (s.project p3)).z :=
    gmlNormal_swap_z (s.project p1) (s.project p2) (s.project p3)
  constructor
  · intro hnz
    rcases lt_or_gt_of_ne hnz with hneg | hpos
    · refine Or.inr ⟨hB (fun hc => absurd hc.2 (not_lt.mpr (le_of_lt hneg))), hA' ⟨hcull, ?_⟩⟩
      rw [hswap]
      exact neg_pos.mpr hneg
    · refine Or.inl ⟨hA ⟨hcull, hpos⟩, hB' (fun hc => ?_)⟩
      rw [hswap] at hc
      exact absurd hc.2 (not_lt.mpr (le_of_lt (neg_neg_of_pos hpos)))
  · intro h0
    refine ⟨hB (fun hc => absurd hc.2 (by rw [h0]; exact lt_irrefl 0)), hB' (fun hc => ?_)⟩
    rw [hswap, h0] at hc
    simpa using hc.2

/-- Witness for the amended C3 at a fresh writer and a non-collinear
triangle: the normal's `z` is nonzero there, and exactly one of the pair is
recorded (here the submitted winding is kept and the swapped one culled). -/
theorem cull_symmetry_amended_witness :
    ((SvgWriter.init 100 100 ⟨0, 0, 1⟩).writeTriangle ⟨0, 0, 0⟩ ⟨100, 0, 0⟩ ⟨0, 100, 0⟩ ⟨0, 0, 1⟩ = SvgWriter.init 100 100 ⟨0, 0, 1⟩
      ∧ ((SvgWriter.init 100 100 ⟨0, 0, 1⟩).writeTriangle ⟨100, 0, 0⟩ ⟨0, 0, 0⟩ ⟨0, 100, 0⟩ ⟨0, 0, 1⟩).elems_
          = (SvgWriter.init 100 100 ⟨0, 0, 1⟩).elems_
            ++ [Elem.triangle ((SvgWriter.init 100 100 ⟨0, 0, 1⟩).project ⟨100, 0, 0⟩)
                 ((SvgWriter.init 100 100 ⟨0, 0, 1⟩).project ⟨0, 0, 0⟩)
                 ((SvgWriter.init 100 100 ⟨0, 0, 1⟩).project ⟨0, 100, 0⟩) ⟨0, 0, 1⟩])
    ∨ (((SvgWriter.init 100 100 ⟨0, 0, 1⟩).writeTriangle ⟨0, 0, 0⟩ ⟨100, 0, 0⟩ ⟨0, 100, 0⟩ ⟨0, 0, 1⟩).elems_
          = (SvgWriter.init 100 100 ⟨0, 0, 1⟩).elems_
            ++ [Elem.triangle ((SvgWriter.init 100 100 ⟨0, 0, 1⟩).project ⟨0, 0, 0⟩)
                 ((SvgWriter.init 100 100 ⟨0, 0, 1⟩).project ⟨100, 0, 0⟩)
                 ((SvgWriter.init 100 100 ⟨0, 0, 1⟩).project ⟨0, 100, 0⟩) ⟨0, 0, 1⟩]
      ∧ (SvgWriter.init 100 100 ⟨0, 0, 1⟩).writeTriangle ⟨100, 0, 0⟩ ⟨0, 0, 0⟩ ⟨0, 100, 0⟩ ⟨0, 0, 1⟩ = SvgWriter.init 100 100 ⟨0, 0, 1⟩) :=
  (cull_symmetry_amended (SvgWriter.init 100 100 ⟨0, 0, 1⟩) ⟨0, 0, 0⟩ ⟨100, 0, 0⟩ ⟨0, 100, 0⟩
      ⟨0, 0, 1⟩ (by norm_num [Vec3.mk.injEq]) (by norm_num [Vec3.mk.injEq])
      (by norm_num [Vec3.mk.injEq]) rfl).1
    (by norm_num [SvgWriter.init, SvgWriter.project, gmlProject, Mat4.mulVec, dot4, idMat4,
      gmlNormal, cross, Vec3.sub])

/-- C8 counterexample: the colorless overload shades with the
cross-product world normal, NOT with the unit world normal.  For the corners
`(0,0,0)`, `(2,0,0)`, `(0,1,0)` the cross-product normal is `(0,0,2)`, whose
normalization is `(0,0,1)` (witnessed by `(0,0,2) = 2 · (0,0,1)` and
`dot (0,0,1) (0,0,1) = 1`); with the unit light direction `(0, 3/5, 4/5)`
the colorless overload records a different color than the four-argument
overload fed `normalToColor` of the unit normal, so the claim fails at this
input. -/
theorem writeTriangleNoColor_unit_cex :
    gmlNormal ⟨0, 0, 0⟩ ⟨2, 0, 0⟩ ⟨0, 1, 0⟩ = ⟨0, 0, 2⟩
    ∧ dot ⟨0, 0, 1⟩ ⟨0, 0, 1⟩ = 1
    ∧ (⟨0, 0, 2⟩ : Vec3) = ⟨2 * 0, 2 * 0, 2 * 1⟩
    ∧ dot (SvgWriter.init 100 100 ⟨0, 3 / 5, 4 / 5⟩).lightDir_
        (SvgWriter.init 100 100 ⟨0, 3 / 5, 4 / 5⟩).lightDir_ = 1
    ∧ ((SvgWriter.init 100 100 ⟨0, 3 / 5, 4 / 5⟩).writeTriangleNoColor ⟨0, 0, 0⟩ ⟨2, 0, 0⟩ ⟨0, 1, 0⟩).elems_
        ≠ ((SvgWriter.init 100 100 ⟨0, 3 / 5, 4 / 5⟩).writeTriangle ⟨0, 0, 0⟩ ⟨2, 0, 0⟩ ⟨0, 1, 0⟩
            ((SvgWriter.init 100 100 ⟨0, 3 / 5, 4 / 5⟩).normalToColor ⟨0, 0, 1⟩)).elems_ := by
  refine ⟨by norm_num [gmlNormal, cross, Vec3.sub, Vec3.mk.injEq],
    by norm_num [dot], by norm_num [Vec3.mk.injEq],
    by norm_num [SvgWriter.init, dot], ?_⟩
  norm_num [SvgWriter.init, SvgWriter.writeTriangleNoColor, SvgWriter.writeTriangle,
    SvgWriter.normalToColor, SvgWriter.project, gmlClamp, dot, gmlProject, Mat4.mulVec,
    dot4, idMat4, gmlNormal, cross, Vec3.sub, Vec3.mk.injEq, Elem.triangle.injEq]

/-- C8 (amended): the colorless `writeTriangle(p1,p2,p3)` behaves exactly
like `writeTriangle(p1,p2,p3,c)` with `c = normalToColor(n)`, where `n` is
the (not necessarily normalized) cross-product polygon normal computed from
the world-space (unprojected) corners. -/
theorem writeTriangleNoColor_delegates (s : SvgWriter) (p1 p2 p3 : Vec3) :
    s.writeTriangleNoColor p1 p2 p3
      = s.writeTriangle p1 p2 p3 (s.normalToColor (gmlNormal p1 p2 p3)) := rfl

/-- A view matrix that collapses every point onto the clip-space origin
(zero linear part, unit `w` row), used to exhibit distinct world points with
identical projections. -/
def collapseView : Mat4 :=
  ⟨⟨0, 0, 0, 0⟩, ⟨0, 0, 0, 0⟩, ⟨0, 0, 0, 0⟩, ⟨0, 0, 0, 1⟩⟩

/-- C10: the degeneracy tests compare the world-space arguments before
projection: a line with distinct world endpoints is recorded even when the
two endpoints project to the same screen point, and a triangle with
pairwise-distinct world corners whose projections all coincide passes the
equality test and (its screen normal being zero) is recorded. -/
theorem degeneracy_tested_pre_projection (s : SvgWriter) (q1 q2 p1 p2 p3 c : Vec3)
    (hq : q1 ≠ q2) (hqp : s.project q1 = s.project q2)
    (h12 : p1 ≠ p2) (h23 : p2 ≠ p3) (h13 : p1 ≠ p3)
    (hp12 : s.project p1 = s.project p2) (hp23 : s.project p2 = s.project p3) :
    (s.writeLine q1 q2 c).elems_ = s.elems_ ++ [Elem.line (s.project q1) (s.project q2) c]
    ∧ (s.writeTriangle p1 p2 p3 c).elems_
        = s.elems_ ++ [Elem.triangle (s.project p1) (s.project p2) (s.project p3) c] := by
  constructor
  · simp only [SvgWriter.writeLine, if_neg hq]
  · refine (writeTriangle_cases s p1 p2 p3 c h12 h23 h13).2 ?_
    rintro ⟨-, hpos⟩
    rw [hp12, hp23, gmlNormal_self] at hpos
    simp at hpos

/-- Witness for C10 under the collapsing view matrix: the distinct points
`(0,0,0)` and `(1,0,0)` project to the same screen point, yet the line and
the triangle over such points are recorded. -/
theorem degeneracy_tested_pre_projection_witness :
    (((SvgWriter.init 100 100 ⟨0, 0, 1⟩).modelView collapseView).writeLine ⟨0, 0, 0⟩ ⟨1, 0, 0⟩ ⟨1, 1, 1⟩).elems_
      = ((SvgWriter.init 100 100 ⟨0, 0, 1⟩).modelView collapseView).elems_
        ++ [Elem.line (((SvgWriter.init 100 100 ⟨0, 0, 1⟩).modelView collapseView).project ⟨0, 0, 0⟩)
             (((SvgWriter.init 100 100 ⟨0, 0, 1⟩).modelView collapseView).project ⟨1, 0, 0⟩) ⟨1, 1, 1⟩]
    ∧ (((SvgWriter.init 100 100 ⟨0, 0, 1⟩).modelView collapseView).writeTriangle ⟨0, 0, 0⟩ ⟨1, 0, 0⟩ ⟨0, 1, 0⟩ ⟨1, 1, 1⟩).elems_
      = ((SvgWriter.init 100 100 ⟨0, 0, 1⟩).modelView collapseView).elems_
        ++ [Elem.triangle (((SvgWriter.init 100 100 ⟨0, 0, 1⟩).modelView collapseView).project ⟨0, 0, 0⟩)
             (((SvgWriter.init 100 100 ⟨0, 0, 1⟩).modelView collapseView).project ⟨1, 0, 0⟩)
             (((SvgWriter.init 100 100 ⟨0, 0, 1⟩).modelView collapseView).project ⟨0, 1, 0⟩) ⟨1, 1, 1⟩] :=
  degeneracy_tested_pre_projection ((SvgWriter.init 100 100 ⟨0, 0, 1⟩).modelView collapseView)
    ⟨0, 0, 0⟩ ⟨1, 0, 0⟩ ⟨0, 0, 0⟩ ⟨1, 0, 0⟩ ⟨0, 1, 0⟩ ⟨1, 1, 1⟩
    (by norm_num [Vec3.mk.injEq])
    (by norm_num [SvgWriter.init, SvgWriter.modelView, collapseView, SvgWriter.project,
      gmlProject, Mat4.mul, Mat4.mulVec, Mat4.c0, Mat4.c1, Mat4.c2, Mat4.c3, dot4, idMat4,
      Vec3.mk.injEq])
    (by norm_num [Vec3.mk.injEq]) (by norm_num [Vec3.mk.injEq]) (by norm_num [Vec3.mk.injEq])
    (by norm_num [SvgWriter.init, SvgWriter.modelView, collapseView, SvgWriter.project,
      gmlProject, Mat4.mul, Mat4.mulVec, Mat4.c0, Mat4.c1, Mat4.c2, Mat4.c3, dot4, idMat4,
      Vec3.mk.injEq])
    (by norm_num [SvgWriter.init, SvgWriter.modelView, collapseView, SvgWriter.project,
      gmlProject, Mat4.mul, Mat4.mulVec, Mat4.c0, Mat4.c1, Mat4.c2, Mat4.c3, dot4, idMat4,
      Vec3.mk.injEq])

end SvgGen
